import Mathlib

/-!
Verification of the pic-swipe trash staging store (`TrashStorage` in
`utils/trash-storage`) and the bounded random-photo selection policy
(`getRandomPhoto` in `components/random-photo-picker`).

The store is a module-level JS `Set<string>` cache plus a `isTrashLoaded`
flag, backed by a single AsyncStorage key holding a JSON array.  We embed
the cache as a duplicate-free `List String` kept in insertion order
(`setAdd` / `setDelete` mirror `Set.add` / `Set.delete`), the durable
storage as an `Option (List String)` (the parsed value under the key, or
`none` when absent), and instrument the world with counters of issued
storage reads and attempted storage writes.  Every source operation wraps
its storage calls in try/catch and never rethrows, so each embedded
operation is a total function parameterised by the outcome of the storage
calls it makes: `readFails` (getItem throws or JSON.parse fails) and
`writeFails` (setItem throws).
-/

/-- `Set.add` on a duplicate-free insertion-ordered list: append if absent. -/
def setAdd (l : List String) (x : String) : List String :=
  if x ∈ l then l else l ++ [x]

/-- `Set.delete` on the list representation: drop every occurrence of `x`. -/
def setDelete (l : List String) (x : String) : List String :=
  l.filter (fun y => y ≠ x)

/-- `new Set(ids)` — deduplicate, keeping first occurrences in order. -/
def dedupIds (ids : List String) : List String :=
  ids.foldl setAdd []

/-- The whole observable state: the module-level in-memory cache
(`trashPhotoIdsCache`), the `isTrashLoaded` flag, the durable value stored
under `TRASH_STORAGE_KEY`, and instrumentation counters for storage reads
issued and storage writes attempted. -/
structure World where
  cache : List String
  isTrashLoaded : Bool
  storage : Option (List String)
  reads : Nat
  writes : Nat
deriving Repr, DecidableEq

/-- `loadTrashFromStorage`: read the key (counted); on success with a stored
value replace the cache by the deserialized set; in every case (value
present, value absent, read or parse failure) set `isTrashLoaded`. -/
def loadTrashFromStorage (w : World) (readFails : Bool) : World :=
  if readFails then
    { w with isTrashLoaded := true, reads := w.reads + 1 }
  else
    match w.storage with
    | some ids => { w with cache := dedupIds ids, isTrashLoaded := true, reads := w.reads + 1 }
    | none => { w with isTrashLoaded := true, reads := w.reads + 1 }

/-- `saveTrashToStorage`: attempt the write (counted); on success the key
now holds `ids`; on failure the durable value is unchanged and the error is
swallowed. -/
def saveTrashToStorage (w : World) (writeFails : Bool) (ids : List String) : World :=
  if writeFails then { w with writes := w.writes + 1 }
  else { w with storage := some ids, writes := w.writes + 1 }

/-- The `if (!isTrashLoaded) await loadTrashFromStorage()` preamble shared by
every operation except `emptyTrash`. -/
def ensureLoaded (w : World) (readFails : Bool) : World :=
  if w.isTrashLoaded then w else loadTrashFromStorage w readFails

/-- `TrashStorage.getTrashPhotoIds` (the `list()` operation). -/
def getTrashPhotoIds (w : World) (readFails : Bool) : World × List String :=
  let w1 := ensureLoaded w readFails
  (w1, w1.cache)

/-- `TrashStorage.addToTrash` (the `add(id)` operation). -/
def addToTrash (w : World) (readFails writeFails : Bool) (photoId : String) : World :=
  let w1 := ensureLoaded w readFails
  let w2 := { w1 with cache := setAdd w1.cache photoId }
  saveTrashToStorage w2 writeFails w2.cache

/-- `TrashStorage.emptyTrash` (the `clear()` operation): clears the cache and
persists `[]`, without consulting or updating `isTrashLoaded`. -/
def emptyTrash (w : World) (writeFails : Bool) : World :=
  saveTrashToStorage { w with cache := [] } writeFails []

/-- `TrashStorage.isInTrash` (the `contains(id)` operation). -/
def isInTrash (w : World) (readFails : Bool) (photoId : String) : World × Bool :=
  let w1 := ensureLoaded w readFails
  (w1, w1.cache.contains photoId)

/-- `TrashStorage.removeFromTrash` (the `remove(id)` operation). -/
def removeFromTrash (w : World) (readFails writeFails : Bool) (photoId : String) : World :=
  let w1 := ensureLoaded w readFails
  let w2 := { w1 with cache := setDelete w1.cache photoId }
  saveTrashToStorage w2 writeFails w2.cache

/-- `TrashStorage.getTrashCount` (the `count()` operation). -/
def getTrashCount (w : World) (readFails : Bool) : World × Nat :=
  let w1 := ensureLoaded w readFails
  (w1, w1.cache.length)

/-- `TrashStorage.preload`. -/
def preload (w : World) (readFails : Bool) : World :=
  ensureLoaded w readFails

/-- An abstract add/remove call. -/
inductive TrashOp where
  | add : String → TrashOp
  | remove : String → TrashOp
deriving Repr, DecidableEq

/-- Run one call, together with the storage outcomes of that call. -/
def runOp (w : World) : TrashOp × Bool × Bool → World
  | (TrashOp.add x, rf, wf) => addToTrash w rf wf x
  | (TrashOp.remove x, rf, wf) => removeFromTrash w rf wf x

/-- Run a finite sequence of add/remove calls. -/
def runOps (w : World) (ops : List (TrashOp × Bool × Bool)) : World :=
  ops.foldl runOp w

/-- The mathematical effect of one call on a set of identifiers. -/
def applyOpSet (s : Finset String) : TrashOp → Finset String
  | TrashOp.add x => insert x s
  | TrashOp.remove x => s.erase x

/-- The mathematical set obtained by applying the calls to the empty set. -/
def specSet (ops : List TrashOp) : Finset String :=
  List.foldl applyOpSet ∅ ops

/-- A store that starts empty and loaded, over an arbitrary durable value. -/
def startWorld (st : Option (List String)) : World :=
  { cache := [], isTrashLoaded := true, storage := st, reads := 0, writes := 0 }

/-- Outcome of one sampling attempt of the random photo picker: the fetch
returned an asset, returned no asset (`assets.assets[0]` undefined), or
threw (caught by the loop's `catch { continue }`). -/
inductive FetchResult where
  | asset : String → FetchResult
  | missing : FetchResult
  | fetchError : FetchResult
deriving Repr, DecidableEq

/-- The `for (attempt = 0; attempt < 10; attempt++)` loop body of
`getRandomPhoto`: attempt `i` with `n` attempts remaining, where `fetches i`
is the outcome of that attempt's asset fetch.  A fetched asset is accepted
only if `TrashStorage.isInTrash` answers false and it is not excluded. -/
def getRandomPhotoGo (readFails : Bool) (excludeIds : List String)
    (fetches : Nat → FetchResult) : World → Nat → Nat → World × Option String
  | w, _, 0 => (w, none)
  | w, i, n + 1 =>
    match fetches i with
    | FetchResult.missing => getRandomPhotoGo readFails excludeIds fetches w (i + 1) n
    | FetchResult.fetchError => getRandomPhotoGo readFails excludeIds fetches w (i + 1) n
    | FetchResult.asset x =>
      let p := isInTrash w readFails x
      if !p.2 && !(excludeIds.contains x) then (p.1, some x)
      else getRandomPhotoGo readFails excludeIds fetches p.1 (i + 1) n

/-- `getRandomPhoto` from the random photo picker: up to 10 attempts,
then `null`. -/
def getRandomPhoto (w : World) (readFails : Bool) (excludeIds : List String)
    (fetches : Nat → FetchResult) : World × Option String :=
  getRandomPhotoGo readFails excludeIds fetches w 0 10

/-! Helper lemmas about the list-as-set operations. -/

@[simp] theorem mem_setAdd (l : List String) (x y : String) :
    y ∈ setAdd l x ↔ y ∈ l ∨ y = x := by
  unfold setAdd
  by_cases h : x ∈ l
  · simp only [if_pos h]
    exact ⟨Or.inl, fun hy => hy.elim id (fun e => e ▸ h)⟩
  · simp [if_neg h]

theorem setAdd_nodup (l : List String) (x : String) (h : l.Nodup) :
    (setAdd l x).Nodup := by
  unfold setAdd
  by_cases hx : x ∈ l
  · simpa [if_pos hx]
  · rw [if_neg hx, List.nodup_append]
    refine ⟨h, List.nodup_singleton x, ?_⟩
    intro a ha hb
    rw [List.mem_singleton] at hb
    exact hx (hb ▸ ha)

theorem setAdd_toFinset (l : List String) (x : String) :
    (setAdd l x).toFinset = insert x l.toFinset := by
  ext y
  simp [mem_setAdd, or_comm]

theorem setAdd_idem (l : List String) (x : String) :
    setAdd (setAdd l x) x = setAdd l x := by
  unfold setAdd
  by_cases h : x ∈ l
  · simp [if_pos h]
  · simp [if_neg h]

@[simp] theorem mem_setDelete (l : List String) (x y : String) :
    y ∈ setDelete l x ↔ y ∈ l ∧ y ≠ x := by
  simp [setDelete]

theorem setDelete_nodup (l : List String) (x : String) (h : l.Nodup) :
    (setDelete l x).Nodup :=
  h.filter _

theorem setDelete_toFinset (l : List String) (x : String) :
    (setDelete l x).toFinset = l.toFinset.erase x := by
  ext y
  simp [mem_setDelete, Finset.mem_erase, and_comm]

theorem setDelete_of_not_mem (l : List String) (x : String) (h : x ∉ l) :
    setDelete l x = l := by
  unfold setDelete
  rw [List.filter_eq_self]
  intro a ha
  simp only [ne_eq, decide_eq_true_eq]
  exact fun e => h (e ▸ ha)

theorem mem_foldl_setAdd (l : List String) (y : String) :
    ∀ acc : List String, y ∈ l.foldl setAdd acc ↔ y ∈ acc ∨ y ∈ l := by
  induction l with
  | nil => intro acc; simp
  | cons a t ih =>
      intro acc
      simp only [List.foldl_cons, ih, mem_setAdd, List.mem_cons]
      tauto

theorem mem_dedupIds (ids : List String) (y : String) :
    y ∈ dedupIds ids ↔ y ∈ ids := by
  simp [dedupIds, mem_foldl_setAdd]

@[simp] theorem contains_iff_mem (l : List String) (x : String) :
    l.contains x = true ↔ x ∈ l := by
  simp [List.contains]

/-! Helper lemmas about the storage primitives. -/

@[simp] theorem loadTrash_isTrashLoaded (w : World) (rf : Bool) :
    (loadTrashFromStorage w rf).isTrashLoaded = true := by
  unfold loadTrashFromStorage
  cases rf
  · cases w.storage <;> simp
  · simp

@[simp] theorem loadTrash_storage (w : World) (rf : Bool) :
    (loadTrashFromStorage w rf).storage = w.storage := by
  unfold loadTrashFromStorage
  cases rf
  · cases w.storage <;> simp
  · simp

@[simp] theorem loadTrash_writes (w : World) (rf : Bool) :
    (loadTrashFromStorage w rf).writes = w.writes := by
  unfold loadTrashFromStorage
  cases rf
  · cases w.storage <;> simp
  · simp

@[simp] theorem loadTrash_reads (w : World) (rf : Bool) :
    (loadTrashFromStorage w rf).reads = w.reads + 1 := by
  unfold loadTrashFromStorage
  cases rf
  · cases w.storage <;> simp
  · simp

@[simp] theorem saveTrash_cache (w : World) (wf : Bool) (ids : List String) :
    (saveTrashToStorage w wf ids).cache = w.cache := by
  unfold saveTrashToStorage
  cases wf <;> simp

@[simp] theorem saveTrash_isTrashLoaded (w : World) (wf : Bool) (ids : List String) :
    (saveTrashToStorage w wf ids).isTrashLoaded = w.isTrashLoaded := by
  unfold saveTrashToStorage
  cases wf <;> simp

@[simp] theorem saveTrash_reads (w : World) (wf : Bool) (ids : List String) :
    (saveTrashToStorage w wf ids).reads = w.reads := by
  unfold saveTrashToStorage
  cases wf <;> simp

@[simp] theorem saveTrash_writes (w : World) (wf : Bool) (ids : List String) :
    (saveTrashToStorage w wf ids).writes = w.writes + 1 := by
  unfold saveTrashToStorage
  cases wf <;> simp

theorem saveTrash_storage_ok (w : World) (ids : List String) :
    (saveTrashToStorage w false ids).storage = some ids := by
  simp [saveTrashToStorage]

theorem saveTrash_storage_err (w : World) (ids : List String) :
    (saveTrashToStorage w true ids).storage = w.storage := by
  simp [saveTrashToStorage]

theorem ensureLoaded_of_loaded (w : World) (rf : Bool) (h : w.isTrashLoaded = true) :
    ensureLoaded w rf = w := by
  simp [ensureLoaded, h]

@[simp] theorem ensureLoaded_isTrashLoaded (w : World) (rf : Bool) :
    (ensureLoaded w rf).isTrashLoaded = true := by
  unfold ensureLoaded
  by_cases h : w.isTrashLoaded <;> simp [h]

@[simp] theorem ensureLoaded_storage (w : World) (rf : Bool) :
    (ensureLoaded w rf).storage = w.storage := by
  unfold ensureLoaded
  by_cases h : w.isTrashLoaded <;> simp [h]

@[simp] theorem ensureLoaded_writes (w : World) (rf : Bool) :
    (ensureLoaded w rf).writes = w.writes := by
  unfold ensureLoaded
  by_cases h : w.isTrashLoaded <;> simp [h]

/-! Per-operation shape lemmas. -/

theorem addToTrash_cache_of_loaded (w : World) (rf wf : Bool) (x : String)
    (hl : w.isTrashLoaded = true) :
    (addToTrash w rf wf x).cache = setAdd w.cache x := by
  simp [addToTrash, ensureLoaded_of_loaded w rf hl]

theorem addToTrash_isTrashLoaded (w : World) (rf wf : Bool) (x : String) :
    (addToTrash w rf wf x).isTrashLoaded = true := by
  simp [addToTrash]

theorem removeFromTrash_cache_of_loaded (w : World) (rf wf : Bool) (x : String)
    (hl : w.isTrashLoaded = true) :
    (removeFromTrash w rf wf x).cache = setDelete w.cache x := by
  simp [removeFromTrash, ensureLoaded_of_loaded w rf hl]

theorem isInTrash_of_loaded (w : World) (rf : Bool) (x : String)
    (hl : w.isTrashLoaded = true) :
    isInTrash w rf x = (w, w.cache.contains x) := by
  simp [isInTrash, ensureLoaded_of_loaded w rf hl]

theorem isInTrash_fst_loaded (w : World) (rf : Bool) (x : String) :
    (isInTrash w rf x).1.isTrashLoaded = true := by
  simp [isInTrash]

theorem isInTrash_snd_eq (w : World) (rf : Bool) (x : String) :
    (isInTrash w rf x).2 = (isInTrash w rf x).1.cache.contains x := rfl

/-! The loaded-store invariant maintained by any add/remove sequence. -/

theorem runOp_loaded_spec (w : World) (op : TrashOp × Bool × Bool)
    (hl : w.isTrashLoaded = true) (hn : w.cache.Nodup) :
    (runOp w op).isTrashLoaded = true ∧ (runOp w op).cache.Nodup ∧
      (runOp w op).cache.toFinset = applyOpSet w.cache.toFinset op.1 := by
  obtain ⟨o, rf, wf⟩ := op
  cases o with
  | add x =>
      refine ⟨?_, ?_, ?_⟩ <;>
        simp [runOp, addToTrash, ensureLoaded_of_loaded w rf hl, applyOpSet, hl,
          setAdd_nodup _ _ hn, setAdd_toFinset]
  | remove x =>
      refine ⟨?_, ?_, ?_⟩ <;>
        simp [runOp, removeFromTrash, ensureLoaded_of_loaded w rf hl, applyOpSet, hl,
          setDelete_nodup _ _ hn, setDelete_toFinset]

theorem runOps_loaded_spec (ops : List (TrashOp × Bool × Bool)) :
    ∀ w : World, w.isTrashLoaded = true → w.cache.Nodup →
      (runOps w ops).isTrashLoaded = true ∧ (runOps w ops).cache.Nodup ∧
      (runOps w ops).cache.toFinset =
        List.foldl applyOpSet w.cache.toFinset (ops.map Prod.fst) := by
  induction ops with
  | nil =>
      intro w hl hn
      exact ⟨hl, hn, rfl⟩
  | cons op rest ih =>
      intro w hl hn
      have h1 := runOp_loaded_spec w op hl hn
      have h2 := ih (runOp w op) h1.1 h1.2.1
      simp only [runOps, List.foldl_cons, List.map_cons] at h2 ⊢
      exact ⟨h2.1, h2.2.1, by rw [h2.2.2, h1.2.2]⟩

/-- Claim C1: starting from an empty, loaded store, after any finite sequence
of add/remove calls with arbitrary storage outcomes per call, `list()` returns
a duplicate-free sequence whose elements are exactly the mathematical set
obtained by applying the same insertions and deletions to the empty set,
independent of whether the persistence writes succeeded; in particular
`add "a"`, `add "b"`, `add "a"` yields `count() = 2` and
`list() = ["a", "b"]`. -/
theorem trash_round_trip :
    (∀ (ops : List (TrashOp × Bool × Bool)) (st : Option (List String)) (rf : Bool),
      (getTrashPhotoIds (runOps (startWorld st) ops) rf).2.toFinset =
          specSet (ops.map Prod.fst) ∧
        (getTrashPhotoIds (runOps (startWorld st) ops) rf).2.Nodup) ∧
    ((getTrashCount (runOps (startWorld none)
        [(TrashOp.add "a", false, false), (TrashOp.add "b", false, false),
         (TrashOp.add "a", false, false)]) false).2 = 2 ∧
      (getTrashPhotoIds (runOps (startWorld none)
        [(TrashOp.add "a", false, false), (TrashOp.add "b", false, false),
         (TrashOp.add "a", false, false)]) false).2 = ["a", "b"]) := by
  constructor
  · intro ops st rf
    have h := runOps_loaded_spec ops (startWorld st) rfl (by simp [startWorld])
    have he : getTrashPhotoIds (runOps (startWorld st) ops) rf =
        (runOps (startWorld st) ops, (runOps (startWorld st) ops).cache) := by
      simp [getTrashPhotoIds, ensureLoaded_of_loaded _ rf h.1]
    rw [he]
    exact ⟨by simpa [startWorld, specSet] using h.2.2, h.2.1⟩
  · exact ⟨by decide, by decide⟩

/-- Claim C2 counterexample: from a not-yet-loaded store whose durable value is
`["x"]`, a `clear()` whose persistence write fails is followed by a `count()`
that lazily reloads the stale durable value and returns 1, not 0. -/
theorem clear_absolute_counterexample :
    (getTrashCount (emptyTrash
      { cache := [], isTrashLoaded := false, storage := some ["x"],
        reads := 0, writes := 0 } true) false).2 ≠ 0 := by decide

/-- Claim C2 (amended): after `clear()` the in-memory set is empty, and if the
store was loaded when `clear()` ran or the persistence write of the empty set
succeeded, then `count()` returns 0 and `list()` returns the empty sequence,
for every prior store state and storage-read outcome. -/
theorem clear_absolute (w : World) (wf rf rf' : Bool)
    (h : w.isTrashLoaded = true ∨ wf = false) :
    (emptyTrash w wf).cache = [] ∧
    (getTrashCount (emptyTrash w wf) rf).2 = 0 ∧
    (getTrashPhotoIds (emptyTrash w wf) rf').2 = [] := by
  rcases h with h | h <;>
    cases wf <;> cases rf <;> cases rf' <;> cases hw : w.isTrashLoaded <;>
      simp_all [emptyTrash, saveTrashToStorage, ensureLoaded, loadTrashFromStorage,
        getTrashCount, getTrashPhotoIds, dedupIds]

theorem clear_absolute_witness :
    (emptyTrash (startWorld (some ["x"])) true).cache = [] ∧
    (getTrashCount (emptyTrash (startWorld (some ["x"])) true) false).2 = 0 ∧
    (getTrashPhotoIds (emptyTrash (startWorld (some ["x"])) true) false).2 = [] :=
  clear_absolute (startWorld (some ["x"])) true false false (Or.inl rfl)

/-- Claim C3: when the durable-storage read throws (or deserialization fails)
at load time, the first `list()` call returns the empty sequence, the load is
marked complete, and the cache is empty, so the store behaves as empty for the
rest of the process.  The source catches the error inside
`loadTrashFromStorage`, so the embedded operation is total and no exception
reaches the caller. -/
theorem load_failure_fail_open (st : Option (List String)) (r wr : Nat) :
    (getTrashPhotoIds { cache := [], isTrashLoaded := false, storage := st, reads := r, writes := wr } true).2 = [] ∧
    (getTrashPhotoIds { cache := [], isTrashLoaded := false, storage := st, reads := r, writes := wr } true).1.isTrashLoaded = true ∧
    (getTrashPhotoIds { cache := [], isTrashLoaded := false, storage := st, reads := r, writes := wr } true).1.cache = [] := by
  refine ⟨?_, ?_, ?_⟩ <;>
    simp [getTrashPhotoIds, ensureLoaded, loadTrashFromStorage]

/-- Claim C4: when the durable-storage write throws during `add`, `remove`, or
`clear`, the in-memory set still reflects the mutation — the id is inserted,
the id is deleted, or the set is emptied — while the durable value is
unchanged; all three operations catch the write error in `saveTrashToStorage`
and are total, so no error propagates to the caller. -/
theorem write_failure_preserves_mutation (w : World) (rf : Bool) (x : String) :
    (addToTrash w rf true x).cache = setAdd (ensureLoaded w rf).cache x ∧
    x ∈ (addToTrash w rf true x).cache ∧
    (addToTrash w rf true x).storage = w.storage ∧
    (removeFromTrash w rf true x).cache = setDelete (ensureLoaded w rf).cache x ∧
    x ∉ (removeFromTrash w rf true x).cache ∧
    (removeFromTrash w rf true x).storage = w.storage ∧
    (emptyTrash w true).cache = [] ∧ (emptyTrash w true).storage = w.storage := by
  refine ⟨?_, ?_, ?_, ?_, ?_, ?_, ?_, ?_⟩ <;>
    simp [addToTrash, removeFromTrash, emptyTrash, saveTrash_storage_err]

/-- Claim C5: on a loaded store, `add x` twice leaves the same set as a single
`add x`, and `remove x` when `x` is absent leaves the set unchanged; both
duplicate operations are total calls completing normally. -/
theorem add_remove_idempotent (w : World) (x : String) (rf rf' wf wf' : Bool)
    (hl : w.isTrashLoaded = true) :
    (addToTrash (addToTrash w rf wf x) rf' wf' x).cache =
        (addToTrash w rf wf x).cache ∧
    (x ∉ w.cache → (removeFromTrash w rf wf x).cache = w.cache) := by
  constructor
  · rw [addToTrash_cache_of_loaded _ rf' wf' x (addToTrash_isTrashLoaded w rf wf x),
      addToTrash_cache_of_loaded w rf wf x hl, setAdd_idem]
  · intro hx
    rw [removeFromTrash_cache_of_loaded w rf wf x hl, setDelete_of_not_mem w.cache x hx]

theorem add_remove_idempotent_witness :
    (addToTrash (addToTrash (startWorld none) false false "a") false false "a").cache =
        (addToTrash (startWorld none) false false "a").cache ∧
    (removeFromTrash (startWorld none) false false "a").cache =
        (startWorld none).cache :=
  ⟨(add_remove_idempotent (startWorld none) "a" false false false false rfl).1,
   (add_remove_idempotent (startWorld none) "a" false false false false rfl).2
      (by decide)⟩

theorem preload_twice_reads (w0 : World) (r0 r1 : Bool) :
    (preload (preload w0 r0) r1).reads =
      w0.reads + (if w0.isTrashLoaded then 0 else 1) := by
  by_cases h0 : w0.isTrashLoaded = true
  · simp [preload, ensureLoaded_of_loaded w0 r0 h0,
      ensureLoaded_of_loaded w0 r1 h0, h0]
  · have h0' : w0.isTrashLoaded = false := by
      cases hb : w0.isTrashLoaded
      · rfl
      · exact absurd hb h0
    have hp : preload w0 r0 = loadTrashFromStorage w0 r0 := by
      simp [preload, ensureLoaded, h0']
    rw [hp]
    simp [preload, ensureLoaded_of_loaded _ r1 (loadTrash_isTrashLoaded w0 r0), h0']

/-- Claim C6: once a load attempt has completed — success, empty, or failure —
the `isTrashLoaded` flag is set and stays set through every operation, no
operation on a loaded store issues another durable-storage read, and two
consecutive `preload` calls read storage at most once in total. -/
theorem lazy_load_runs_once (w : World) (rf rf' wf : Bool) (x : String)
    (hl : w.isTrashLoaded = true) :
    ((preload w rf).isTrashLoaded = true ∧ (preload w rf).reads = w.reads) ∧
    ((getTrashPhotoIds w rf).1.isTrashLoaded = true ∧
      (getTrashPhotoIds w rf).1.reads = w.reads) ∧
    ((isInTrash w rf x).1.isTrashLoaded = true ∧
      (isInTrash w rf x).1.reads = w.reads) ∧
    ((getTrashCount w rf).1.isTrashLoaded = true ∧
      (getTrashCount w rf).1.reads = w.reads) ∧
    ((addToTrash w rf wf x).isTrashLoaded = true ∧
      (addToTrash w rf wf x).reads = w.reads) ∧
    ((removeFromTrash w rf wf x).isTrashLoaded = true ∧
      (removeFromTrash w rf wf x).reads = w.reads) ∧
    ((emptyTrash w wf).isTrashLoaded = true ∧ (emptyTrash w wf).reads = w.reads) ∧
    (∀ (w0 : World) (r0 r1 : Bool),
      (loadTrashFromStorage w0 r0).isTrashLoaded = true ∧
      (preload (preload w0 r0) r1).reads =
        w0.reads + (if w0.isTrashLoaded then 0 else 1)) := by
  have he := ensureLoaded_of_loaded w rf hl
  refine ⟨⟨?_, ?_⟩, ⟨?_, ?_⟩, ⟨?_, ?_⟩, ⟨?_, ?_⟩, ⟨?_, ?_⟩, ⟨?_, ?_⟩, ⟨?_, ?_⟩,
      fun w0 r0 r1 => ⟨loadTrash_isTrashLoaded w0 r0, preload_twice_reads w0 r0 r1⟩⟩ <;>
    simp [preload, getTrashPhotoIds, isInTrash, getTrashCount, addToTrash,
      removeFromTrash, emptyTrash, he, hl]

theorem lazy_load_runs_once_witness :
    (preload (startWorld none) false).isTrashLoaded = true ∧
    (preload (startWorld none) false).reads = (startWorld none).reads :=
  (lazy_load_runs_once (startWorld none) false false false "a" rfl).1

/-- Claim C7: if `add "p1"` completes with a successful durable write from any
prior state, then a fresh store instance (empty cache, loaded flag false)
backed by the same durable storage reports `contains "p1" = true`: the
persisted array round-trips through the next lazy load. -/
theorem persistence_survival (w : World) (rf : Bool) (r wr : Nat) :
    (isInTrash { cache := [], isTrashLoaded := false, storage := (addToTrash w rf false "p1").storage, reads := r, writes := wr } false "p1").2 = true := by
  have hst : (addToTrash w rf false "p1").storage =
      some (setAdd (ensureLoaded w rf).cache "p1") := by
    simp [addToTrash, saveTrashToStorage]
  rw [hst]
  simp [isInTrash, ensureLoaded, loadTrashFromStorage, mem_dedupIds]

/-- Claim C9: `clear()` leaves the `isTrashLoaded` flag unchanged; in
particular when the flag was false it stays false, the next query issues a
lazy durable-storage read (read counter goes up by one), and the reloaded
durable value — not the cleared in-memory cache — is what `list()` returns
when the failed-write storage still holds `ids`. -/
theorem clear_preserves_load_flag (w : World) (wf : Bool) (ids : List String)
    (h : w.isTrashLoaded = false) :
    (∀ (v : World) (g : Bool), (emptyTrash v g).isTrashLoaded = v.isTrashLoaded) ∧
    (emptyTrash w wf).isTrashLoaded = false ∧
    (getTrashPhotoIds (emptyTrash w wf) false).1.reads = w.reads + 1 ∧
    (w.storage = some ids →
      (getTrashPhotoIds (emptyTrash w true) false).2 = dedupIds ids) := by
  have hflag : ∀ (v : World) (g : Bool),
      (emptyTrash v g).isTrashLoaded = v.isTrashLoaded := by
    intro v g
    simp [emptyTrash]
  have hnl : (emptyTrash w wf).isTrashLoaded = false := by rw [hflag, h]
  refine ⟨hflag, hnl, ?_, ?_⟩
  · simp [getTrashPhotoIds, ensureLoaded, emptyTrash, h]
  · intro hst
    have hst' : (emptyTrash w true).storage = some ids := by
      simp [emptyTrash, saveTrashToStorage, hst]
    have hnl' : (emptyTrash w true).isTrashLoaded = false := by rw [hflag, h]
    have hload : ensureLoaded (emptyTrash w true) false =
        loadTrashFromStorage (emptyTrash w true) false := by
      simp [ensureLoaded, hnl']
    simp [getTrashPhotoIds, hload, loadTrashFromStorage, hst']

theorem clear_preserves_load_flag_witness :
    (emptyTrash { cache := [], isTrashLoaded := false, storage := some ["x"], reads := 0, writes := 0 } true).isTrashLoaded = false ∧
    (getTrashPhotoIds (emptyTrash { cache := [], isTrashLoaded := false, storage := some ["x"], reads := 0, writes := 0 } true) false).2 = dedupIds ["x"] :=
  ⟨(clear_preserves_load_flag { cache := [], isTrashLoaded := false, storage := some ["x"], reads := 0, writes := 0 } true ["x"] rfl).2.1,
   (clear_preserves_load_flag { cache := [], isTrashLoaded := false, storage := some ["x"], reads := 0, writes := 0 } true ["x"] rfl).2.2.2 rfl⟩

/-- Claim C10: the query operations `list`, `contains`, `count`, and `preload`
never write to durable storage in any state — the stored value and the count
of attempted writes are unchanged — while `add`, `remove`, and `clear` each
attempt exactly one write. -/
theorem queries_never_write (w : World) (rf wf : Bool) (x : String) :
    ((getTrashPhotoIds w rf).1.storage = w.storage ∧
      (getTrashPhotoIds w rf).1.writes = w.writes) ∧
    ((isInTrash w rf x).1.storage = w.storage ∧
      (isInTrash w rf x).1.writes = w.writes) ∧
    ((getTrashCount w rf).1.storage = w.storage ∧
      (getTrashCount w rf).1.writes = w.writes) ∧
    ((preload w rf).storage = w.storage ∧ (preload w rf).writes = w.writes) ∧
    (addToTrash w rf wf x).writes = w.writes + 1 ∧
    (removeFromTrash w rf wf x).writes = w.writes + 1 ∧
    (emptyTrash w wf).writes = w.writes + 1 := by
  refine ⟨⟨?_, ?_⟩, ⟨?_, ?_⟩, ⟨?_, ?_⟩, ⟨?_, ?_⟩, ?_, ?_, ?_⟩ <;>
    simp [getTrashPhotoIds, isInTrash, getTrashCount, preload, addToTrash,
      removeFromTrash, emptyTrash]

/-! The bounded random-sampling loop of the photo picker. -/

theorem getRandomPhotoGo_step (rf : Bool) (excl : List String)
    (f : Nat → FetchResult) (w : World) (i n : Nat) :
    getRandomPhotoGo rf excl f w i (n + 1) =
      match f i with
      | FetchResult.missing => getRandomPhotoGo rf excl f w (i + 1) n
      | FetchResult.fetchError => getRandomPhotoGo rf excl f w (i + 1) n
      | FetchResult.asset x =>
        if !(isInTrash w rf x).2 && !(excl.contains x) then
          ((isInTrash w rf x).1, some x)
        else getRandomPhotoGo rf excl f (isInTrash w rf x).1 (i + 1) n := rfl

theorem getRandomPhotoGo_some (rf : Bool) (excl : List String)
    (f : Nat → FetchResult) :
    ∀ (n i : Nat) (w : World) (x : String),
      (getRandomPhotoGo rf excl f w i n).2 = some x →
      (getRandomPhotoGo rf excl f w i n).1.isTrashLoaded = true ∧
      (getRandomPhotoGo rf excl f w i n).1.cache.contains x = false ∧
      excl.contains x = false := by
  intro n
  induction n with
  | zero =>
      intro i w x h
      simp [getRandomPhotoGo] at h
  | succ n ih =>
      intro i w x h
      rcases hf : f i with y | _ | _
      · simp only [getRandomPhotoGo_step, hf] at h ⊢
        by_cases hacc : (!(isInTrash w rf y).2 && !(excl.contains y)) = true
        · rw [if_pos hacc] at h ⊢
          have hyx : y = x := by simpa using h
          subst hyx
          rw [Bool.and_eq_true, Bool.not_eq_true', Bool.not_eq_true'] at hacc
          refine ⟨isInTrash_fst_loaded w rf y, ?_, hacc.2⟩
          rw [← isInTrash_snd_eq]
          exact hacc.1
        · rw [if_neg hacc] at h ⊢
          exact ih (i + 1) _ x h
      · simp only [getRandomPhotoGo_step, hf] at h ⊢
        exact ih (i + 1) w x h
      · simp only [getRandomPhotoGo_step, hf] at h ⊢
        exact ih (i + 1) w x h

theorem getRandomPhotoGo_congr (rf : Bool) (excl : List String)
    (f g : Nat → FetchResult) :
    ∀ (n i : Nat) (w : World), (∀ j, i ≤ j → j < i + n → f j = g j) →
      getRandomPhotoGo rf excl f w i n = getRandomPhotoGo rf excl g w i n := by
  intro n
  induction n with
  | zero => intro i w _; rfl
  | succ n ih =>
      intro i w h
      have hfi : f i = g i := h i (le_refl i) (by omega)
      have hrest : ∀ j, i + 1 ≤ j → j < (i + 1) + n → f j = g j := by
        intro j h1 h2
        exact h j (by omega) (by omega)
      rw [getRandomPhotoGo_step, getRandomPhotoGo_step, ← hfi]
      rcases hf : f i with y | _ | _
      · simp only
        by_cases hacc : (!(isInTrash w rf y).2 && !(excl.contains y)) = true
        · rw [if_pos hacc, if_pos hacc]
        · rw [if_neg hacc, if_neg hacc]
          exact ih (i + 1) _ hrest
      · exact ih (i + 1) w hrest
      · exact ih (i + 1) w hrest

theorem getRandomPhotoGo_none (rf : Bool) (excl : List String)
    (f : Nat → FetchResult) (w : World) (hl : w.isTrashLoaded = true) :
    ∀ (n i : Nat),
      (∀ j, i ≤ j → j < i + n → ∀ y, f j = FetchResult.asset y →
        w.cache.contains y = true ∨ excl.contains y = true) →
      getRandomPhotoGo rf excl f w i n = (w, none) := by
  intro n
  induction n with
  | zero => intro i _; rfl
  | succ n ih =>
      intro i h
      have hrest : ∀ j, i + 1 ≤ j → j < (i + 1) + n → ∀ y,
          f j = FetchResult.asset y →
          w.cache.contains y = true ∨ excl.contains y = true := by
        intro j h1 h2 y hy
        exact h j (by omega) (by omega) y hy
      rw [getRandomPhotoGo_step]
      rcases hf : f i with y | _ | _
      · simp only
        have hy := h i (le_refl i) (by omega) y hf
        have hit : isInTrash w rf y = (w, w.cache.contains y) :=
          isInTrash_of_loaded w rf y hl
        have hcond : (!(isInTrash w rf y).2 && !(excl.contains y)) = false := by
          rw [hit]
          show (!w.cache.contains y && !excl.contains y) = false
          rcases hy with hy | hy
          · rw [hy]
            rfl
          · rw [hy]
            simp
        have hcond' : ¬((!(isInTrash w rf y).2 && !(excl.contains y)) = true) := by
          rw [hcond]
          decide
        rw [if_neg hcond', hit]
        exact ih (i + 1) hrest
      · exact ih (i + 1) hrest
      · exact ih (i + 1) hrest

/-- Claim C8: the random photo selector samples at most 10 times — its result
depends only on the outcomes of the first 10 attempts; when it returns an
asset, that asset is absent from the trash store and not in the exclusion
list; and when all 10 attempts are unsuccessful (asset missing, fetch error,
trashed, or excluded) it returns `none`. -/
theorem getRandomPhoto_spec :
    (∀ (w : World) (rf : Bool) (excl : List String) (f : Nat → FetchResult)
        (x : String),
      (getRandomPhoto w rf excl f).2 = some x →
      (isInTrash (getRandomPhoto w rf excl f).1 rf x).2 = false ∧
        excl.contains x = false) ∧
    (∀ (w : World) (rf : Bool) (excl : List String) (f g : Nat → FetchResult),
      (∀ i, i < 10 → f i = g i) →
      getRandomPhoto w rf excl f = getRandomPhoto w rf excl g) ∧
    (∀ (w : World) (rf : Bool) (excl : List String) (f : Nat → FetchResult),
      w.isTrashLoaded = true →
      (∀ i, i < 10 → ∀ y, f i = FetchResult.asset y →
        w.cache.contains y = true ∨ excl.contains y = true) →
      (getRandomPhoto w rf excl f).2 = none) := by
  refine ⟨?_, ?_, ?_⟩
  · intro w rf excl f x h
    simp only [getRandomPhoto] at h ⊢
    have hs := getRandomPhotoGo_some rf excl f 10 0 w x h
    rw [isInTrash_of_loaded _ rf x hs.1]
    exact ⟨hs.2.1, hs.2.2⟩
  · intro w rf excl f g hfg
    simp only [getRandomPhoto]
    exact getRandomPhotoGo_congr rf excl f g 10 0 w (fun j h1 h2 => hfg j (by omega))
  · intro w rf excl f hl h
    simp only [getRandomPhoto]
    rw [getRandomPhotoGo_none rf excl f w hl 10 0
      (fun j h1 h2 y hy => h j (by omega) y hy)]

theorem getRandomPhoto_spec_witness :
    ((isInTrash (getRandomPhoto (startWorld none) false ["e"]
          (fun _ => FetchResult.asset "q")).1 false "q").2 = false ∧
      (["e"] : List String).contains "q" = false) ∧
    getRandomPhoto (startWorld none) false [] (fun _ => FetchResult.missing) =
      getRandomPhoto (startWorld none) false []
        (fun i => if i < 10 then FetchResult.missing else FetchResult.asset "z") ∧
    (getRandomPhoto (startWorld none) false []
        (fun _ => FetchResult.fetchError)).2 = none :=
  ⟨getRandomPhoto_spec.1 (startWorld none) false ["e"]
      (fun _ => FetchResult.asset "q") "q" (by decide),
   getRandomPhoto_spec.2.1 (startWorld none) false [] _ _
      (fun i hi => by simp [hi]),
   getRandomPhoto_spec.2.2 (startWorld none) false []
      (fun _ => FetchResult.fetchError) rfl (fun i hi y hy => nomatch hy)⟩
